import Mathlib

/-!
Verification of the investment-strategy backtester in src/main.py
(class InvestmentStrategies).

Embedding conventions:
* A numpy/pandas float is modeled exactly: a value is either a finite
  rational (exact, no rounding and no overflow), a signed infinity, or NaN.
  Division by zero, invalid powers, and aggregation over such values follow
  the IEEE-754 rules numpy implements (warnings, not exceptions).
* The price series handed to the backtester (the output of download_data,
  an external data source) is a list of finite rationals.
* The only genuine Python exception the modeled code can raise is an
  IndexError, from indexing an empty window; it is modeled with Except.
* The final exponentiation (annualized return) is real-valued, so the two
  per-strategy results split into an exact ending value and a real return.
-/

/-- A numpy floating-point value: a finite value is an exact rational;
division by zero and invalid operations produce signed infinities and NaN
as in IEEE 754 (overflow is not modeled: finite stays finite and exact). -/
inductive PyVal where
  | fin (q : ℚ)
  | inf (pos : Bool)
  | nan
deriving DecidableEq

namespace PyVal

/-- IEEE negation of a float. -/
def neg : PyVal → PyVal
  | fin q => fin (-q)
  | inf p => inf (!p)
  | nan => nan

/-- IEEE addition: infinities of opposite sign give NaN; NaN propagates. -/
def add : PyVal → PyVal → PyVal
  | fin a, fin b => fin (a + b)
  | fin _, inf p => inf p
  | inf p, fin _ => inf p
  | inf p, inf q => if p = q then inf p else nan
  | nan, _ => nan
  | _, nan => nan

/-- IEEE subtraction. -/
def sub : PyVal → PyVal → PyVal
  | fin a, fin b => fin (a - b)
  | fin _, inf p => inf (!p)
  | inf p, fin _ => inf p
  | inf p, inf q => if p = q then nan else inf p
  | nan, _ => nan
  | _, nan => nan

/-- IEEE multiplication: zero times infinity is NaN; NaN propagates. -/
def mul : PyVal → PyVal → PyVal
  | fin a, fin b => fin (a * b)
  | fin a, inf p => if a = 0 then nan else if 0 < a then inf p else inf (!p)
  | inf p, fin b => if b = 0 then nan else if 0 < b then inf p else inf (!p)
  | inf p, inf q => inf (p == q)
  | nan, _ => nan
  | _, nan => nan

/-- IEEE division: a nonzero finite over (unsigned, i.e. positive) zero is a
signed infinity, zero over zero is NaN, finite over infinity is zero,
infinity over infinity is NaN. -/
def div : PyVal → PyVal → PyVal
  | fin a, fin b =>
      if b = 0 then (if a = 0 then nan else if 0 < a then inf true else inf false)
      else fin (a / b)
  | fin _, inf _ => fin 0
  | inf p, fin b => if 0 ≤ b then inf p else inf (!p)
  | inf _, inf _ => nan
  | nan, _ => nan
  | _, nan => nan

/-- The Python float comparison a > b: any comparison with NaN is False. -/
def gt : PyVal → PyVal → Bool
  | fin a, fin b => decide (b < a)
  | fin _, inf p => !p
  | inf p, fin _ => p
  | inf p, inf q => p && !q
  | nan, _ => false
  | _, nan => false

/-- np.sum over a list of floats: a left fold of IEEE addition from 0.0. -/
def sum (l : List PyVal) : PyVal := l.foldl add (fin 0)

end PyVal

/-- A numpy float produced after real exponentiation: finite values are
exact reals, with the same signed infinities and NaN as PyVal. -/
inductive PyRVal where
  | fin (x : ℝ)
  | inf (pos : Bool)
  | nan

namespace PyRVal

/-- IEEE addition on real-valued floats. -/
noncomputable def add : PyRVal → PyRVal → PyRVal
  | fin a, fin b => fin (a + b)
  | fin _, inf p => inf p
  | inf p, fin _ => inf p
  | inf p, inf q => if p = q then inf p else nan
  | nan, _ => nan
  | _, nan => nan

/-- IEEE subtraction on real-valued floats. -/
noncomputable def sub : PyRVal → PyRVal → PyRVal
  | fin a, fin b => fin (a - b)
  | fin _, inf p => inf (!p)
  | inf p, fin _ => inf p
  | inf p, inf q => if p = q then nan else inf p
  | nan, _ => nan
  | _, nan => nan

open scoped Classical in
/-- IEEE multiplication on real-valued floats. -/
noncomputable def mul : PyRVal → PyRVal → PyRVal
  | fin a, fin b => fin (a * b)
  | fin a, inf p => if a = 0 then nan else if 0 < a then inf p else inf (!p)
  | inf p, fin b => if b = 0 then nan else if 0 < b then inf p else inf (!p)
  | inf p, inf q => inf (p == q)
  | nan, _ => nan
  | _, nan => nan

open scoped Classical in
/-- IEEE division on real-valued floats. -/
noncomputable def div : PyRVal → PyRVal → PyRVal
  | fin a, fin b =>
      if b = 0 then (if a = 0 then nan else if 0 < a then inf true else inf false)
      else fin (a / b)
  | fin _, inf _ => fin 0
  | inf p, fin b => if 0 ≤ b then inf p else inf (!p)
  | inf _, inf _ => nan
  | nan, _ => nan
  | _, nan => nan

end PyRVal

/-- numpy exponentiation b ** e of a float b by the exact rational exponent e
(the code only uses e = 1 / (len / 12)).  Any float to the power 0 is 1; a
negative finite base with a non-integer exponent is NaN; 0 to a negative
power is +infinity; otherwise the exact real power.  For an integer-valued
exponent, Real.rpow agrees with the integer power even on negative bases. -/
noncomputable def pypowR (b : PyVal) (e : ℚ) : PyRVal :=
  if e = 0 then .fin 1
  else
    match b with
    | .fin q =>
        if q < 0 ∧ e.den ≠ 1 then .nan
        else if q = 0 ∧ e < 0 then .inf true
        else .fin ((q : ℝ) ^ (e : ℝ))
    | .inf p =>
        if p then (if 0 < e then .inf true else .fin 0)
        else (if 0 < e then (if e.den = 1 ∧ e.num % 2 = 1 then .inf false else .inf true)
              else .fin 0)
    | .nan => .nan

/-- np.mean of a list of floats: the IEEE sum divided by the length; the
mean of an empty list is NaN (numpy emits a RuntimeWarning and returns nan). -/
noncomputable def pymean (l : List PyRVal) : PyRVal :=
  if l.isEmpty then .nan
  else PyRVal.div (l.foldl PyRVal.add (.fin 0)) (.fin (l.length : ℝ))

/-- The only Python exception the modeled code can raise: an IndexError
from prices[0] (line 64) or prices[-1] (line 41) on an empty window. -/
inductive PyExn where
  | indexError
deriving DecidableEq

/-- Line 64 of src/main.py: shares_bought = amount / prices[0]. -/
def lumpsum_shares (amount : ℚ) (prices : List ℚ) : PyVal :=
  PyVal.div (.fin amount) (.fin prices.headI)

/-- Line 65 of src/main.py: ending_value = shares_bought * prices[-1]. -/
def lumpsum_ev (amount : ℚ) (prices : List ℚ) : PyVal :=
  PyVal.mul (lumpsum_shares amount prices) (.fin prices.getLastI)

/-- Line 66 of src/main.py: the annualized return
(ending_value / amount) ** (1 / (len(prices) / 12)) - 1. -/
noncomputable def lumpsum_ret (amount : ℚ) (prices : List ℚ) : PyRVal :=
  PyRVal.sub
    (pypowR (PyVal.div (lumpsum_ev amount prices) (.fin amount))
      (1 / ((prices.length : ℚ) / 12)))
    (.fin 1)

/-- invest_lumpsum (src/main.py lines 48-66): buys amount / prices[0] shares
and holds; indexing prices[0] on an empty window raises IndexError, which is
the only way the function can fail. -/
noncomputable def invest_lumpsum (amount : ℚ) (prices : List ℚ) :
    Except PyExn (PyVal × PyRVal) :=
  if prices = [] then .error .indexError
  else .ok (lumpsum_ev amount prices, lumpsum_ret amount prices)

/-- Lines 38-39 of src/main.py: total_shares_bought =
np.sum(amount / prices), the per-period share purchases summed. -/
def dca_total_shares (amount : ℚ) (prices : List ℚ) : PyVal :=
  PyVal.sum (prices.map fun p => PyVal.div (.fin amount) (.fin p))

/-- Line 40 of src/main.py: avg_cost_per_share =
amount * len(prices) / total_shares_bought. -/
def dca_avg_cost (amount : ℚ) (prices : List ℚ) : PyVal :=
  PyVal.div (PyVal.mul (.fin amount) (.fin (prices.length : ℚ)))
    (dca_total_shares amount prices)

/-- Line 42 of src/main.py: ending_value = total_shares_bought * prices[-1]. -/
def dca_ev (amount : ℚ) (prices : List ℚ) : PyVal :=
  PyVal.mul (dca_total_shares amount prices) (.fin prices.getLastI)

/-- Line 43 of src/main.py: total_return =
(prices[-1] - avg_cost_per_share) / avg_cost_per_share. -/
def dca_total_return (amount : ℚ) (prices : List ℚ) : PyVal :=
  PyVal.div (PyVal.sub (.fin prices.getLastI) (dca_avg_cost amount prices))
    (dca_avg_cost amount prices)

/-- Lines 44-45 of src/main.py: the annualized return
(1 + total_return) ** (1 / (len(prices) / 12)) - 1. -/
noncomputable def dca_ret (amount : ℚ) (prices : List ℚ) : PyRVal :=
  PyRVal.sub
    (pypowR (PyVal.add (.fin 1) (dca_total_return amount prices))
      (1 / ((prices.length : ℚ) / 12)))
    (.fin 1)

/-- invest_dca (src/main.py lines 22-46): the elementwise division, the sum
and the average cost (lines 38-40) never raise in numpy (zero prices give
infinities, an empty array gives a NaN average); the first statement that can
raise is prices[-1] on line 41, an IndexError exactly on an empty window. -/
noncomputable def invest_dca (amount : ℚ) (prices : List ℚ) :
    Except PyExn (PyVal × PyRVal) :=
  if prices = [] then .error .indexError
  else .ok (dca_ev amount prices, dca_ret amount prices)

/-- The four accumulators of simulate_strategies (src/main.py lines 139-142):
win counters and the per-window annualized-return lists. -/
structure SimState where
  lumpsum_wins : ℕ
  dca_wins : ℕ
  lumpsum_returns : List PyRVal
  dca_returns : List PyRVal

/-- One iteration of the loop in simulate_strategies (lines 144-154): slice
the window data.iloc[start : start + year*12], evaluate both strategies
(DCA with amount / (year*12) per period), append both annualized returns,
and credit the window to lump sum exactly when its ending value compares
strictly greater, otherwise to DCA. -/
noncomputable def simulate_step (amount : ℚ) (months : ℕ) (data : List ℚ)
    (st : SimState) (start : ℕ) : Except PyExn SimState := do
  let prices := (data.drop start).take months
  let lumpsum ← invest_lumpsum amount prices
  let dca ← invest_dca (amount / (months : ℚ)) prices
  let st1 : SimState :=
    { st with
        lumpsum_returns := st.lumpsum_returns ++ [lumpsum.2]
        dca_returns := st.dca_returns ++ [dca.2] }
  if PyVal.gt lumpsum.1 dca.1 then
    .ok { st1 with lumpsum_wins := st1.lumpsum_wins + 1 }
  else
    .ok { st1 with dca_wins := st1.dca_wins + 1 }

/-- simulate_strategies (src/main.py lines 123-156): the loop
for start in range(len(data) - year * 12), folded over the initial state
(0, 0, [], []).  A Python range over a negative bound is empty, exactly as
the truncated natural subtraction makes List.range empty. -/
noncomputable def simulate_strategies (amount : ℚ) (data : List ℚ) (year : ℕ) :
    Except PyExn SimState :=
  (List.range (data.length - year * 12)).foldlM
    (simulate_step amount (year * 12) data) ⟨0, 0, [], []⟩

/-- calculate_win_ratio (src/main.py lines 159-176).  The docstring promises
"The win ratio in percentage", but the body returns total_wins, the plain sum
of the two win counters. -/
def calculate_win_ratio (lumpsum_wins dca_wins : ℕ) : ℕ :=
  lumpsum_wins + dca_wins

/-- One row of the DataFrame built by test_strategies (lines 92-99). -/
structure YearRecord where
  year : ℕ
  lumpsum_wins : ℕ
  dca_wins : ℕ
  avg_lumpsum_return : PyRVal
  avg_dca_return : PyRVal
  lumpsum_win_ratio : ℕ

/-- test_strategies (src/main.py lines 68-101), with the externally fetched
price series passed in: for each requested year it runs the simulation and
records the win counts, np.mean(returns) * 100 for each strategy, and the
output of calculate_win_ratio. -/
noncomputable def test_strategies (amount : ℚ) (data : List ℚ)
    (years : List ℕ) : Except PyExn (List YearRecord) :=
  years.mapM fun year => do
    let st ← simulate_strategies amount data year
    pure { year := year
           lumpsum_wins := st.lumpsum_wins
           dca_wins := st.dca_wins
           avg_lumpsum_return := PyRVal.mul (pymean st.lumpsum_returns) (.fin 100)
           avg_dca_return := PyRVal.mul (pymean st.dca_returns) (.fin 100)
           lumpsum_win_ratio := calculate_win_ratio st.lumpsum_wins st.dca_wins }

/-- The boolean decided by lines 151-154 for the window at a given start
index: does the lump-sum ending value compare strictly greater than DCA's. -/
def lsWins (amount : ℚ) (months : ℕ) (data : List ℚ) (s : ℕ) : Bool :=
  PyVal.gt (lumpsum_ev amount ((data.drop s).take months))
    (dca_ev (amount / (months : ℚ)) ((data.drop s).take months))

/-- Binding a successful Except computation just applies the continuation. -/
lemma Except.ok_bind {ε α β : Type} (a : α) (f : α → Except ε β) :
    (Except.ok a : Except ε α) >>= f = f a := rfl

/-- Summing exact finite floats never leaves the finite range: np.sum over a
list of finite values is the exact rational sum. -/
lemma PyVal.foldl_add_fin (l : List ℚ) (q : ℚ) :
    (l.map PyVal.fin).foldl PyVal.add (.fin q) = .fin (q + l.sum) := by
  induction l generalizing q with
  | nil => simp
  | cons a l ih => simp [PyVal.add, ih, add_assoc]

/-- np.sum over the exact image of a rational list. -/
lemma PyVal.sum_map_fin (l : List ℚ) :
    PyVal.sum (l.map PyVal.fin) = .fin l.sum := by
  simpa using PyVal.foldl_add_fin l 0

/-- A window sliced inside the series is non-empty: its length is the full
months count whenever the start index leaves room for it. -/
lemma window_ne_nil (data : List ℚ) (months s : ℕ) (hm : 0 < months)
    (hs : s < data.length - months) :
    (data.drop s).take months ≠ [] := by
  have hlen : 0 < ((data.drop s).take months).length := by
    simp only [List.length_take, List.length_drop]
    omega
  exact List.ne_nil_of_length_pos hlen

/-- Characterization of the simulation loop: folding simulate_step over any
list of start indices whose windows are non-empty succeeds, counts a lump-sum
win per window whose ending value compares strictly greater, credits every
other window to DCA, and appends both annualized returns window by window. -/
lemma simulate_step_foldlM (amount : ℚ) (months : ℕ) (data : List ℚ)
    (starts : List ℕ) (st : SimState)
    (h : ∀ s ∈ starts, (data.drop s).take months ≠ []) :
    starts.foldlM (simulate_step amount months data) st = .ok
      { lumpsum_wins := st.lumpsum_wins + starts.countP (lsWins amount months data)
        dca_wins := st.dca_wins + starts.countP (fun s => !lsWins amount months data s)
        lumpsum_returns := st.lumpsum_returns ++
          starts.map (fun s => lumpsum_ret amount ((data.drop s).take months))
        dca_returns := st.dca_returns ++
          starts.map (fun s => dca_ret (amount / (months : ℚ)) ((data.drop s).take months)) } := by
  induction starts generalizing st with
  | nil =>
    simp only [List.foldlM_nil, List.countP_nil, List.map_nil, List.append_nil, Nat.add_zero]
    rfl
  | cons s rest ih =>
    have hs : (data.drop s).take months ≠ [] := h s (List.mem_cons_self s rest)
    have hrest : ∀ t ∈ rest, (data.drop t).take months ≠ [] :=
      fun t ht => h t (List.mem_cons_of_mem s ht)
    rw [List.foldlM_cons]
    simp only [simulate_step, invest_lumpsum, invest_dca, if_neg hs, Except.ok_bind]
    by_cases hw : PyVal.gt (lumpsum_ev amount ((data.drop s).take months))
        (dca_ev (amount / (months : ℚ)) ((data.drop s).take months)) = true
    · rw [if_pos hw, Except.ok_bind, ih _ hrest]
      simp [lsWins, hw, List.countP_cons, Nat.add_assoc, Nat.add_comm 1]
    · rw [if_neg hw, Except.ok_bind, ih _ hrest]
      simp [lsWins, hw, Bool.not_eq_true, List.countP_cons, Nat.add_assoc, Nat.add_comm 1]

/-- The simulation over a positive window length never fails and computes the
sliding-window tally: a lump-sum win per start index whose window compares
strictly greater, the complement for DCA, and one appended annualized return
per strategy per window, in start order. -/
lemma simulate_strategies_eq (amount : ℚ) (data : List ℚ) (year : ℕ)
    (hy : 1 ≤ year) :
    simulate_strategies amount data year = .ok
      { lumpsum_wins := (List.range (data.length - year * 12)).countP
          (lsWins amount (year * 12) data)
        dca_wins := (List.range (data.length - year * 12)).countP
          (fun s => !lsWins amount (year * 12) data s)
        lumpsum_returns := (List.range (data.length - year * 12)).map
          (fun s => lumpsum_ret amount ((data.drop s).take (year * 12)))
        dca_returns := (List.range (data.length - year * 12)).map
          (fun s => dca_ret (amount / ((year * 12 : ℕ) : ℚ))
            ((data.drop s).take (year * 12))) } := by
  unfold simulate_strategies
  rw [simulate_step_foldlM]
  · simp
  · intro s hs
    rw [List.mem_range] at hs
    exact window_ne_nil data (year * 12) s (by omega) hs

/-- With the window length at least the series length the loop body never
runs: a Python range over a non-positive bound is empty. -/
lemma simulate_strategies_empty (amount : ℚ) (data : List ℚ) (year : ℕ)
    (h : data.length ≤ year * 12) :
    simulate_strategies amount data year = .ok ⟨0, 0, [], []⟩ := by
  unfold simulate_strategies
  have hz : data.length - year * 12 = 0 := by omega
  rw [hz]
  rfl

/-- C4: for every price series and positive window length with
len(priceSeries) - windowMonths > 0, the simulation succeeds with
lumpSumWins + dcaWins = len(priceSeries) - windowMonths, and each
annualized-return list has exactly one entry per evaluated window. -/
theorem claim_C4 (amount : ℚ) (data : List ℚ) (year : ℕ) (hy : 1 ≤ year)
    (hlen : year * 12 < data.length) :
    ∃ st : SimState, simulate_strategies amount data year = .ok st ∧
      st.lumpsum_wins + st.dca_wins = data.length - year * 12 ∧
      st.lumpsum_returns.length = data.length - year * 12 ∧
      st.dca_returns.length = data.length - year * 12 := by
  refine ⟨_, simulate_strategies_eq amount data year hy, ?_, ?_, ?_⟩
  · simpa using
      (List.length_eq_countP_add_countP (lsWins amount (year * 12) data)
        (l := List.range (data.length - year * 12))).symm
  · simp
  · simp

theorem claim_C4_witness :
    ∃ st : SimState, simulate_strategies 1 (List.replicate 13 1) 1 = .ok st ∧
      st.lumpsum_wins + st.dca_wins = (List.replicate 13 (1 : ℚ)).length - 1 * 12 ∧
      st.lumpsum_returns.length = (List.replicate 13 (1 : ℚ)).length - 1 * 12 ∧
      st.dca_returns.length = (List.replicate 13 (1 : ℚ)).length - 1 * 12 :=
  claim_C4 1 (List.replicate 13 1) 1 (by norm_num) (by simp)

/-- C5: the simulation evaluates exactly the windows
prices[start : start + windowMonths] for start = 0 .. len - windowMonths - 1,
sliding by one, as witnessed by the per-window annualized-return lists; when
the series is one period longer than the window, exactly the single window at
start index 0 is evaluated. -/
theorem claim_C5 (amount : ℚ) (data : List ℚ) (year : ℕ) (hy : 1 ≤ year) :
    ∃ st : SimState, simulate_strategies amount data year = .ok st ∧
      st.lumpsum_returns = (List.range (data.length - year * 12)).map
        (fun start => lumpsum_ret amount ((data.drop start).take (year * 12))) ∧
      st.dca_returns = (List.range (data.length - year * 12)).map
        (fun start => dca_ret (amount / ((year * 12 : ℕ) : ℚ))
          ((data.drop start).take (year * 12))) ∧
      (data.length = year * 12 + 1 →
        st.lumpsum_returns =
          [lumpsum_ret amount ((data.drop 0).take (year * 12))]) := by
  refine ⟨_, simulate_strategies_eq amount data year hy, rfl, rfl, ?_⟩
  intro hone
  rw [hone]
  have hz : year * 12 + 1 - year * 12 = 1 := by omega
  rw [hz]
  have hr : List.range 1 = [0] := rfl
  rw [hr]
  simp

theorem claim_C5_witness :
    ∃ st : SimState, simulate_strategies 1 (List.replicate 13 1) 1 = .ok st ∧
      st.lumpsum_returns =
        (List.range ((List.replicate 13 (1 : ℚ)).length - 1 * 12)).map
          (fun start =>
            lumpsum_ret 1 (((List.replicate 13 (1 : ℚ)).drop start).take (1 * 12))) ∧
      st.dca_returns =
        (List.range ((List.replicate 13 (1 : ℚ)).length - 1 * 12)).map
          (fun start => dca_ret (1 / ((1 * 12 : ℕ) : ℚ))
            (((List.replicate 13 (1 : ℚ)).drop start).take (1 * 12))) ∧
      ((List.replicate 13 (1 : ℚ)).length = 1 * 12 + 1 →
        st.lumpsum_returns =
          [lumpsum_ret 1 (((List.replicate 13 (1 : ℚ)).drop 0).take (1 * 12))]) :=
  claim_C5 1 (List.replicate 13 1) 1 (by norm_num)

/-- C6: a window is credited to lump sum exactly when its ending value
compares strictly greater than DCA's, and to DCA otherwise; on finite values
the comparison is the strict order on exact rationals, so an exact tie is
credited to DCA. -/
theorem claim_C6 (amount : ℚ) (data : List ℚ) (year : ℕ) (hy : 1 ≤ year) :
    ∃ st : SimState, simulate_strategies amount data year = .ok st ∧
      st.lumpsum_wins = ((List.range (data.length - year * 12)).filter
        (fun s => PyVal.gt (lumpsum_ev amount ((data.drop s).take (year * 12)))
          (dca_ev (amount / ((year * 12 : ℕ) : ℚ))
            ((data.drop s).take (year * 12))))).length ∧
      st.dca_wins = ((List.range (data.length - year * 12)).filter
        (fun s => !PyVal.gt (lumpsum_ev amount ((data.drop s).take (year * 12)))
          (dca_ev (amount / ((year * 12 : ℕ) : ℚ))
            ((data.drop s).take (year * 12))))).length ∧
      (∀ a b : ℚ, PyVal.gt (.fin a) (.fin b) = decide (b < a)) := by
  refine ⟨_, simulate_strategies_eq amount data year hy, ?_, ?_, fun a b => rfl⟩
  · simp only [List.countP_eq_length_filter]
    rfl
  · simp only [List.countP_eq_length_filter]
    rfl

theorem claim_C6_witness :
    ∃ st : SimState, simulate_strategies 1 (List.replicate 13 1) 1 = .ok st ∧
      st.lumpsum_wins = ((List.range ((List.replicate 13 (1 : ℚ)).length - 1 * 12)).filter
        (fun s => PyVal.gt
          (lumpsum_ev 1 (((List.replicate 13 (1 : ℚ)).drop s).take (1 * 12)))
          (dca_ev (1 / ((1 * 12 : ℕ) : ℚ))
            (((List.replicate 13 (1 : ℚ)).drop s).take (1 * 12))))).length ∧
      st.dca_wins = ((List.range ((List.replicate 13 (1 : ℚ)).length - 1 * 12)).filter
        (fun s => !PyVal.gt
          (lumpsum_ev 1 (((List.replicate 13 (1 : ℚ)).drop s).take (1 * 12)))
          (dca_ev (1 / ((1 * 12 : ℕ) : ℚ))
            (((List.replicate 13 (1 : ℚ)).drop s).take (1 * 12))))).length ∧
      (∀ a b : ℚ, PyVal.gt (.fin a) (.fin b) = decide (b < a)) :=
  claim_C6 1 (List.replicate 13 1) 1 (by norm_num)

/-- C9: the simulation is deterministic and has no hidden state: it is a
function of the investment amount, the price series and the window length
alone, so two invocations on the same inputs agree; in this value-passing
embedding the inputs themselves are immutable. -/
theorem claim_C9 (amount : ℚ) (data : List ℚ) (year : ℕ)
    (o1 o2 : Except PyExn SimState)
    (h1 : simulate_strategies amount data year = o1)
    (h2 : simulate_strategies amount data year = o2) : o1 = o2 :=
  h1.symm.trans h2

theorem claim_C9_witness :
    simulate_strategies 1 [1] 1 = simulate_strategies 1 [1] 1 :=
  claim_C9 1 [1] 1 _ _ rfl rfl

/-- The row test_strategies builds for a window length whose simulation saw
no window: zero wins, NaN means, win ratio 0. -/
lemma test_strategies_row_empty (amount : ℚ) (data : List ℚ) (year : ℕ)
    (h : data.length ≤ year * 12) :
    test_strategies amount data [year] = .ok
      [{ year := year, lumpsum_wins := 0, dca_wins := 0,
         avg_lumpsum_return := .nan, avg_dca_return := .nan,
         lumpsum_win_ratio := 0 }] := by
  simp only [test_strategies, List.mapM_cons, List.mapM_nil,
    simulate_strategies_empty amount data year h, Except.ok_bind, pure_bind]
  simp only [pymean, PyRVal.mul, calculate_win_ratio, List.isEmpty_nil, if_pos,
    Nat.add_zero, Nat.zero_add]
  rfl

/-- C1 is false of the code: the reported "Lump Sum Win Ratio" is computed by
calculate_win_ratio, whose body returns total_wins; at 60 lump-sum wins and
90 DCA wins it reports 150, while the claimed formula gives 40, and 150 lies
outside [0, 100]. -/
theorem claim_C1_code_bug :
    calculate_win_ratio 60 90 = 150 ∧
    ((60 : ℚ) / (60 + 90)) * 100 = 40 ∧ ¬((150 : ℚ) ≤ 100) :=
  ⟨rfl, by norm_num, by norm_num⟩

/-- C2 counterexample: with two months of data and a one-year window (zero
evaluable windows) the run neither crashes nor surfaces any InsufficientData
condition: it returns an ordinary row whose mean returns are NaN and whose
win ratio is 0, contradicting the claim that fabricated zero/NaN aggregates
are never reported as valid results. -/
theorem claim_C2_counterexample :
    test_strategies 1 [1, 2] [1] = .ok
      [{ year := 1, lumpsum_wins := 0, dca_wins := 0,
         avg_lumpsum_return := .nan, avg_dca_return := .nan,
         lumpsum_win_ratio := 0 }] :=
  test_strategies_row_empty 1 [1, 2] 1 (by norm_num)

/-- C2 amended: when the series length is at most years*12 the run does not
crash, but no explicit InsufficientData condition exists: the simulation
returns zero wins and empty return lists, and the reported row carries NaN
mean returns (np.mean of an empty list) and win ratio 0, presented exactly
like a valid row. -/
theorem claim_C2_amended (amount : ℚ) (data : List ℚ) (year : ℕ)
    (h : data.length ≤ year * 12) :
    simulate_strategies amount data year = .ok ⟨0, 0, [], []⟩ ∧
    test_strategies amount data [year] = .ok
      [{ year := year, lumpsum_wins := 0, dca_wins := 0,
         avg_lumpsum_return := .nan, avg_dca_return := .nan,
         lumpsum_win_ratio := 0 }] :=
  ⟨simulate_strategies_empty amount data year h,
   test_strategies_row_empty amount data year h⟩

theorem claim_C2_witness :
    simulate_strategies 2 [3] 1 = .ok ⟨0, 0, [], []⟩ ∧
    test_strategies 2 [3] [1] = .ok
      [{ year := 1, lumpsum_wins := 0, dca_wins := 0,
         avg_lumpsum_return := .nan, avg_dca_return := .nan,
         lumpsum_win_ratio := 0 }] :=
  claim_C2_amended 2 [3] 1 (by norm_num)

/-- One is a fixed point of numpy exponentiation for every exponent. -/
lemma pypowR_one (e : ℚ) : pypowR (.fin 1) e = .fin 1 := by
  by_cases he : e = 0
  · simp [pypowR, he]
  · simp [pypowR, he, Real.one_rpow]

/-- C3 counterexample: the claim demands a DomainError whenever amount ≤ 0,
but with amount = -1 on the one-month window [2] invest_lumpsum does not fail
at all: it returns ending value -1 and annualized return 0. -/
theorem claim_C3_counterexample :
    invest_lumpsum (-1) [2] = .ok (.fin (-1), .fin 0) := by
  have hev : lumpsum_ev (-1) [2] = .fin (-1) := by
    norm_num [lumpsum_ev, lumpsum_shares, PyVal.div, PyVal.mul,
      List.headI, List.getLastI]
  have hdiv : PyVal.div (lumpsum_ev (-1) [2]) (.fin (-1)) = .fin 1 := by
    rw [hev]
    norm_num [PyVal.div]
  have hret : lumpsum_ret (-1) [2] = .fin 0 := by
    unfold lumpsum_ret
    rw [hdiv, pypowR_one]
    norm_num [PyRVal.sub]
  simp [invest_lumpsum, hev, hret]

/-- C3 amended: neither function validates its inputs or raises a
DomainError; the only failure of either is a raw IndexError, exactly on an
empty price window.  Otherwise both always return, and non-finite floats
escape to the caller: a zero price makes invest_dca return infinite ending
value and infinite annualized return, and amount = 0 makes invest_lumpsum
return a NaN annualized return. -/
theorem claim_C3_amended (amount : ℚ) (prices : List ℚ) :
    (invest_lumpsum amount prices = .error .indexError ↔ prices = []) ∧
    (invest_dca amount prices = .error .indexError ↔ prices = []) ∧
    invest_dca 1 [0, 1] = .ok (.inf true, .inf true) ∧
    invest_lumpsum 0 [1] = .ok (.fin 0, .nan) := by
  refine ⟨?_, ?_, ?_, ?_⟩
  · constructor
    · intro h
      by_contra hne
      simp only [invest_lumpsum, if_neg hne] at h
      exact Except.noConfusion h
    · intro h
      subst h
      rfl
  · constructor
    · intro h
      by_contra hne
      simp only [invest_dca, if_neg hne] at h
      exact Except.noConfusion h
    · intro h
      subst h
      rfl
  · have hsh : dca_total_shares 1 [0, 1] = .inf true := by
      norm_num [dca_total_shares, PyVal.sum, PyVal.div, PyVal.add, List.foldl]
    have havg : dca_avg_cost 1 [0, 1] = .fin 0 := by
      unfold dca_avg_cost
      rw [hsh]
      norm_num [PyVal.div, PyVal.mul]
    have htr : dca_total_return 1 [0, 1] = .inf true := by
      unfold dca_total_return
      rw [havg]
      norm_num [PyVal.div, PyVal.sub, List.getLastI]
    have h1 : PyVal.add (.fin 1) (dca_total_return 1 [0, 1]) = .inf true := by
      rw [htr]
      norm_num [PyVal.add]
    have hret : dca_ret 1 [0, 1] = .inf true := by
      unfold dca_ret
      rw [h1]
      norm_num [pypowR, PyRVal.sub]
    have hev : dca_ev 1 [0, 1] = .inf true := by
      unfold dca_ev
      rw [hsh]
      norm_num [PyVal.mul, List.getLastI]
    simp [invest_dca, hev, hret]
  · have hev0 : lumpsum_ev 0 [1] = .fin 0 := by
      norm_num [lumpsum_ev, lumpsum_shares, PyVal.div, PyVal.mul,
        List.headI, List.getLastI]
    have hdiv0 : PyVal.div (lumpsum_ev 0 [1]) (.fin 0) = PyVal.nan := by
      rw [hev0]
      norm_num [PyVal.div]
    have hret0 : lumpsum_ret 0 [1] = .nan := by
      unfold lumpsum_ret
      rw [hdiv0]
      norm_num [pypowR, PyRVal.sub]
    simp [invest_lumpsum, hev0, hret0]

/-- With nonzero prices, every per-period purchase amount / p is an exact
finite float. -/
lemma map_div_fin (amount : ℚ) (l : List ℚ) (h : ∀ p ∈ l, p ≠ 0) :
    (l.map fun p => PyVal.div (.fin amount) (.fin p)) =
      (l.map fun p => amount / p).map PyVal.fin := by
  induction l with
  | nil => rfl
  | cons a t ih =>
    have ha : a ≠ 0 := h a (List.mem_cons_self a t)
    have ht : ∀ p ∈ t, p ≠ 0 := fun p hp => h p (List.mem_cons_of_mem a hp)
    simp only [List.map_cons, ih ht]
    congr 1
    simp [PyVal.div, ha]

/-- With nonzero prices the DCA total share count is the exact rational sum
of the per-period purchases. -/
lemma dca_total_shares_fin (amount : ℚ) (prices : List ℚ)
    (h : ∀ p ∈ prices, p ≠ 0) :
    dca_total_shares amount prices = .fin ((prices.map fun p => amount / p).sum) := by
  unfold dca_total_shares
  rw [map_div_fin amount prices h, PyVal.sum_map_fin]

/-- The capital actually deployed: each period pays price * shares = amount,
so the share-weighted total spend is amount * numPeriods. -/
lemma sum_map_price_mul_shares (amount : ℚ) (l : List ℚ) (h : ∀ p ∈ l, p ≠ 0) :
    (l.map fun p => p * (amount / p)).sum = amount * l.length := by
  induction l with
  | nil => simp
  | cons a t ih =>
    have ha : a ≠ 0 := h a (List.mem_cons_self a t)
    have ht : ∀ p ∈ t, p ≠ 0 := fun p hp => h p (List.mem_cons_of_mem a hp)
    rw [List.map_cons, List.sum_cons, mul_comm a (amount / a),
      div_mul_cancel₀ amount ha, ih ht, List.length_cons]
    push_cast
    ring

/-- The last element of a non-empty list is a member. -/
lemma getLastI_mem (l : List ℚ) (h : l ≠ []) : l.getLastI ∈ l := by
  rw [List.getLastI_eq_getLast?, List.getLast?_eq_getLast_of_ne_nil h, Option.iget_some]
  exact List.getLast_mem h

/-- The head of a non-empty list is a member. -/
lemma headI_mem (l : List ℚ) (h : l ≠ []) : l.headI ∈ l := by
  obtain ⟨a, t, rfl⟩ := List.exists_cons_of_ne_nil h
  exact List.mem_cons_self a t

/-- C7: for a non-empty window of positive prices and a positive periodic
amount, the average cost per share amount * numPeriods / totalShares equals
the share-weighted average price paid (sum of price_i * sharesBought_i over
total shares), and the total return (prices[-1] - avgCost) / avgCost equals
endingValue / (amount * numPeriods) - 1. -/
theorem claim_C7 (amount : ℚ) (prices : List ℚ) (hne : prices ≠ [])
    (hamt : 0 < amount) (hpos : ∀ p ∈ prices, 0 < p) :
    dca_avg_cost amount prices =
      .fin ((prices.map fun p => p * (amount / p)).sum /
        (prices.map fun p => amount / p).sum) ∧
    ∃ ev tr : ℚ, dca_ev amount prices = .fin ev ∧
      dca_total_return amount prices = .fin tr ∧
      tr = ev / (amount * prices.length) - 1 := by
  have hS : 0 < (prices.map fun p => amount / p).sum := by
    apply List.sum_pos
    · intro x hx
      rw [List.mem_map] at hx
      obtain ⟨p, hp, rfl⟩ := hx
      exact div_pos hamt (hpos p hp)
    · simpa using hne
  have hfin : dca_total_shares amount prices =
      .fin ((prices.map fun p => amount / p).sum) :=
    dca_total_shares_fin amount prices (fun p hp => (hpos p hp).ne')
  have hn : (0 : ℚ) < (prices.length : ℚ) := by
    exact_mod_cast List.length_pos.mpr hne
  have havg : dca_avg_cost amount prices =
      .fin (amount * (prices.length : ℚ) / (prices.map fun p => amount / p).sum) := by
    unfold dca_avg_cost
    rw [hfin]
    simp [PyVal.mul, PyVal.div, hS.ne']
  have hsum : (prices.map fun p => p * (amount / p)).sum =
      amount * (prices.length : ℚ) :=
    sum_map_price_mul_shares amount prices (fun p hp => (hpos p hp).ne')
  have havgne : amount * (prices.length : ℚ) /
      (prices.map fun p => amount / p).sum ≠ 0 :=
    (div_pos (mul_pos hamt hn) hS).ne'
  refine ⟨by rw [havg, hsum], ?_⟩
  refine ⟨(prices.map fun p => amount / p).sum * prices.getLastI,
    (prices.getLastI - amount * (prices.length : ℚ) /
        (prices.map fun p => amount / p).sum) /
      (amount * (prices.length : ℚ) / (prices.map fun p => amount / p).sum),
    ?_, ?_, ?_⟩
  · unfold dca_ev
    rw [hfin]
    simp [PyVal.mul]
  · unfold dca_total_return
    rw [havg]
    simp [PyVal.sub, PyVal.div, havgne]
  · field_simp
    ring

theorem claim_C7_witness :
    dca_avg_cost 1 [1, 2] =
      .fin ((([1, 2] : List ℚ).map fun p => p * (1 / p)).sum /
        (([1, 2] : List ℚ).map fun p => 1 / p).sum) ∧
    ∃ ev tr : ℚ, dca_ev 1 [1, 2] = .fin ev ∧
      dca_total_return 1 [1, 2] = .fin tr ∧
      tr = ev / (1 * (([1, 2] : List ℚ).length : ℚ)) - 1 :=
  claim_C7 1 [1, 2] (by simp) (by norm_num)
    (by intro p hp; rcases List.mem_cons.mp hp with h | h
        · rw [h]; norm_num
        · rw [List.mem_singleton.mp h]; norm_num)

/-- C8: on a strictly monotonically increasing window of positive prices with
positive amount, the lump-sum evaluation succeeds and its annualized return
is exactly (P_last / P_first) ^ (12 / months) - 1. -/
theorem claim_C8 (amount : ℚ) (prices : List ℚ) (hne : prices ≠ [])
    (hamt : 0 < amount) (hpos : ∀ p ∈ prices, 0 < p)
    (hmono : List.Chain' (fun a b => a < b) prices) :
    invest_lumpsum amount prices =
      .ok (lumpsum_ev amount prices, lumpsum_ret amount prices) ∧
    lumpsum_ret amount prices =
      .fin (((prices.getLastI : ℝ) / (prices.headI : ℝ)) ^
        ((12 : ℝ) / (prices.length : ℝ)) - 1) := by
  have hp0 : 0 < prices.headI := hpos _ (headI_mem prices hne)
  have hpl : 0 < prices.getLastI := hpos _ (getLastI_mem prices hne)
  have hn : (0 : ℚ) < (prices.length : ℚ) := by
    exact_mod_cast List.length_pos.mpr hne
  refine ⟨by simp [invest_lumpsum, hne], ?_⟩
  have hev : lumpsum_ev amount prices =
      .fin (amount / prices.headI * prices.getLastI) := by
    unfold lumpsum_ev lumpsum_shares
    simp [PyVal.div, PyVal.mul, hp0.ne']
  have hqeq : amount / prices.headI * prices.getLastI / amount =
      prices.getLastI / prices.headI := by
    field_simp
    ring
  have hbase : PyVal.div (lumpsum_ev amount prices) (.fin amount) =
      .fin (prices.getLastI / prices.headI) := by
    rw [hev]
    simp [PyVal.div, hamt.ne', hqeq]
  have hq : 0 < prices.getLastI / prices.headI := div_pos hpl hp0
  have hexp : (1 : ℚ) / ((prices.length : ℚ) / 12) = 12 / (prices.length : ℚ) := by
    rw [one_div_div]
  unfold lumpsum_ret
  rw [hbase, hexp]
  have hpow : pypowR (.fin (prices.getLastI / prices.headI))
      (12 / (prices.length : ℚ)) =
      .fin (((prices.getLastI / prices.headI : ℚ) : ℝ) ^
        (((12 / (prices.length : ℚ)) : ℚ) : ℝ)) := by
    have he : (12 : ℚ) / (prices.length : ℚ) ≠ 0 :=
      (div_pos (by norm_num) hn).ne'
    simp [pypowR, he, not_lt.mpr hq.le, hq.ne']
  rw [hpow]
  have hc1 : ((prices.getLastI / prices.headI : ℚ) : ℝ) =
      (prices.getLastI : ℝ) / (prices.headI : ℝ) := by push_cast; ring
  have hc2 : (((12 / (prices.length : ℚ)) : ℚ) : ℝ) =
      (12 : ℝ) / (prices.length : ℝ) := by push_cast; ring
  rw [hc1, hc2]
  simp [PyRVal.sub]

theorem claim_C8_witness :
    invest_lumpsum 1 [1, 2] =
      .ok (lumpsum_ev 1 [1, 2], lumpsum_ret 1 [1, 2]) ∧
    lumpsum_ret 1 [1, 2] =
      .fin (((([1, 2] : List ℚ).getLastI : ℝ) / (([1, 2] : List ℚ).headI : ℝ)) ^
        ((12 : ℝ) / ((([1, 2] : List ℚ).length : ℕ) : ℝ)) - 1) :=
  claim_C8 1 [1, 2] (by simp) (by norm_num)
    (by intro p hp; rcases List.mem_cons.mp hp with h | h
        · rw [h]; norm_num
        · rw [List.mem_singleton.mp h]; norm_num)
    (by norm_num [List.chain'_cons, List.chain'_singleton])

/-- C10: the lump-sum evaluation depends only on the window's endpoints and
length: for a positive amount, two non-empty positive windows of equal length
that agree on first and last price produce identical ending values and
annualized returns, regardless of intermediate prices. -/
theorem claim_C10 (amount : ℚ) (p1 p2 : List ℚ) (h1 : p1 ≠ []) (h2 : p2 ≠ [])
    (hamt : 0 < amount) (hpos1 : ∀ p ∈ p1, 0 < p) (hpos2 : ∀ p ∈ p2, 0 < p)
    (hlen : p1.length = p2.length) (hhead : p1.headI = p2.headI)
    (hlast : p1.getLastI = p2.getLastI) :
    invest_lumpsum amount p1 = invest_lumpsum amount p2 := by
  have hev : lumpsum_ev amount p1 = lumpsum_ev amount p2 := by
    unfold lumpsum_ev lumpsum_shares
    rw [hhead, hlast]
  have hret : lumpsum_ret amount p1 = lumpsum_ret amount p2 := by
    unfold lumpsum_ret
    rw [hev, hlen]
  simp [invest_lumpsum, h1, h2, hev, hret]

theorem claim_C10_witness :
    invest_lumpsum 1 [1, 5, 2] = invest_lumpsum 1 [1, 7, 2] :=
  claim_C10 1 [1, 5, 2] [1, 7, 2] (by simp) (by simp) (by norm_num)
    (by intro p hp
        rcases List.mem_cons.mp hp with h | h
        · rw [h]; norm_num
        · rcases List.mem_cons.mp h with h2 | h2
          · rw [h2]; norm_num
          · rw [List.mem_singleton.mp h2]; norm_num)
    (by intro p hp
        rcases List.mem_cons.mp hp with h | h
        · rw [h]; norm_num
        · rcases List.mem_cons.mp h with h2 | h2
          · rw [h2]; norm_num
          · rw [List.mem_singleton.mp h2]; norm_num)
    rfl rfl rfl
